import Mathlib

/-!
Verification development for the plastron import job engine.

Shallow embedding of:
- `plastron.core.util.ItemLog` (plastron-legacy/src/plastron/core/util.py)
- `plastron.jobs.imports` (plastron-repo/src/plastron/jobs/imports/__init__.py):
  `ImportConfig`, `ImportJob` (`get_source`, `access`, `member_of`, `complete`),
  `ImportRow` (`validate_item`, `validate_files`, `update_repo`, `create_resource`),
  and `ImportRun.run` (row loop, counters, ledgers, terminal classification).

External collaborators (repository client, file-source handles performing I/O,
the rdflib RDF layer, the spreadsheet adapter) are represented abstractly:
repository write outcomes and file-existence answers are inputs supplied
through a `RepoEnv`, and the file-source handles are a pure tagged union,
since `ImportJob.get_source` itself only does string dispatch.
-/

namespace Plastron

/-- Insertion into an insertion-ordered string set, modelling Python
`set.add` as used by `ItemLog.item_keys` and rdflib property `add`. -/
def addKey (ks : List String) (k : String) : List String :=
  if k ∈ ks then ks else ks ++ [k]

/-- One persisted line of an `ItemLog` CSV file: a mapping from field name
to value, as written by `csv.DictWriter.writerow` / read by `DictReader`. -/
structure LogRow where
  fields : List (String × String)
deriving Repr, DecidableEq

/-- Field lookup on a persisted row (Python `row[key]`, as `Option`). -/
def LogRow.get (r : LogRow) (k : String) : Option String :=
  r.fields.lookup k

/-- Embedding of `plastron.core.util.ItemLog`: an append-only CSV-backed ledger with an
in-memory key set. `file_rows` is the persisted file content (header
omitted: it is fixed by `fieldnames`); `item_keys` is `self.item_keys`. -/
structure ItemLog where
  fieldnames : List String
  keyfield : String
  file_rows : List LogRow
  item_keys : List String
deriving Repr, DecidableEq

/-- The key of a persisted row under a ledger's key field
(`row[self.keyfield]`; rows written by this code always carry the key
field, so the default is never reached in the verified scenarios). -/
def rowKey (keyfield : String) (r : LogRow) : String :=
  (r.get keyfield).getD ""

/-- Embedding of `ItemLog.load_keys`: replay of the file rows into the key set. -/
def loadKeys (keyfield : String) (ks : List String) (rows : List LogRow) : List String :=
  rows.foldl (fun acc r => addKey acc (rowKey keyfield r)) ks

/-- Embedding of `ItemLog.__init__`: construct over a backing file; `none` means the
file does not exist (no keys loaded), `some rows` its parsed content. -/
def ItemLog.fromFile (fieldnames : List String) (keyfield : String)
    (file : Option (List LogRow)) : ItemLog :=
  match file with
  | none => ⟨fieldnames, keyfield, [], []⟩
  | some rows => ⟨fieldnames, keyfield, rows, loadKeys keyfield [] rows⟩

/-- Embedding of `ItemLog.append`: write the row as a new line and record its key. -/
def ItemLog.append (log : ItemLog) (row : LogRow) : ItemLog :=
  { log with
      file_rows := log.file_rows ++ [row]
      item_keys := addKey log.item_keys (rowKey log.keyfield row) }

/-- Embedding of `ItemLog.__contains__`: membership in the in-memory key set. -/
def ItemLog.contains (log : ItemLog) (k : String) : Bool :=
  k ∈ log.item_keys

/-- Embedding of `ItemLog.__len__`: count of distinct keys currently known. -/
def ItemLog.length (log : ItemLog) : Nat :=
  log.item_keys.length

/-- Reconstructing an `ItemLog` over the same backing file
(a fresh `ItemLog.__init__` against the current file state). -/
def ItemLog.reload (log : ItemLog) : ItemLog :=
  ItemLog.fromFile log.fieldnames log.keyfield (some log.file_rows)

/-- Embedding of `collections.Counter` as used for the run counters: an
insertion-ordered mapping from counter name to count. -/
abbrev Counters := List (String × Nat)

/-- Counter entry lookup by key. -/
def cfind : Counters → String → Option Nat
  | [], _ => none
  | (k', v) :: rest, k => if k' = k then some v else cfind rest k

/-- Counter read: missing keys read as `0` (Python `Counter[k]`). -/
def cget (c : Counters) (k : String) : Nat :=
  (cfind c k).getD 0

/-- Counter increment `count[k] += n`: updates the entry in place, or
appends a new entry when the key is not yet present. -/
def cinc : Counters → String → Nat → Counters
  | [], k, n => [(k, n)]
  | (k', v) :: rest, k, n =>
    if k' = k then (k', v + n) :: rest else (k', v) :: cinc rest k n

/-- Python `str.startswith`, on the character lists of the strings. -/
def pyStartsWith (s p : String) : Bool :=
  p.data.isPrefixOf s.data

/-- Python `str.endswith`, on the character lists of the strings. -/
def pyEndsWith (s p : String) : Bool :=
  p.data.isSuffixOf s.data

/-- The Python slice `s[n:]`, on the character list of the string. -/
def pyDrop (s : String) (n : Nat) : String :=
  ⟨s.data.drop n⟩

/-- The `plastron.files` handle kinds returned by `ImportJob.get_source`.
The handle constructors themselves perform no I/O; each variant records
the arguments the source passes to the corresponding class
(`ZipFileSource`, `RemoteFileSource`, `HTTPFileSource`,
`LocalFileSource`). `ssh_key` is the `key_filename` ssh option. -/
inductive BinarySource
  | zipFileSource (zip_file : String) (path : String) (ssh_key : Option String)
  | remoteFileSource (location : String) (ssh_key : Option String)
  | httpFileSource (uri : String)
  | localFileSource (localpath : String)
deriving Repr, DecidableEq

/-- POSIX `os.path.join` restricted to two components, as called by
`ImportJob.get_source`: an absolute second component replaces the first;
otherwise a separator is inserted unless the first already ends in one
or is empty. -/
def osPathJoin (a b : String) : String :=
  if pyStartsWith b "/" then b
  else if a = "" ∨ pyEndsWith a "/" then a ++ b
  else a ++ "/" ++ b

/-- Embedding of `plastron.jobs.imports.ImportConfig` (the fields; `job_id` is the
job identity, the rest are the structural configuration). -/
structure ImportConfig where
  job_id : String
  model : Option String
  access : Option String
  member_of : Option String
  container : Option String
  binaries_location : Option String
  extract_text_types : Option String
deriving Repr, DecidableEq

/-- Embedding of `plastron.jobs.imports.ImportJob`: the state relevant to the verified
operations — its configuration, ssh key material, and completed ledger. -/
structure ImportJob where
  config : ImportConfig
  ssh_private_key : Option String
  completed_log : ItemLog
deriving Repr, DecidableEq

/-- Embedding of `ImportJob.get_source`: pure string dispatch on the prefix of
`base_location`. The branch order is the source's `if`/`elif` chain:
`zip:` first, then `sftp:`, then `http:`/`https:`, then `zip+sftp:`,
and otherwise a local path. Both zip branches strip the first four
characters of `base_location` (`base_location[4:]`). -/
def ImportJob.get_source (job : ImportJob) (base_location : String) (path : String) :
    BinarySource :=
  if pyStartsWith base_location "zip:" then
    .zipFileSource (pyDrop base_location 4) path none
  else if pyStartsWith base_location "sftp:" then
    .remoteFileSource (osPathJoin base_location path) job.ssh_private_key
  else if pyStartsWith base_location "http:" ∨ pyStartsWith base_location "https:" then
    .httpFileSource ((if pyEndsWith base_location "/" then base_location else base_location ++ "/") ++ path)
  else if pyStartsWith base_location "zip+sftp:" then
    .zipFileSource (pyDrop base_location 4) path job.ssh_private_key
  else
    .localFileSource (osPathJoin base_location path)

/-- Python exception kinds that escape the embedded operations.
`jobError` is `plastron.jobs.JobError` (carrying its message);
`typeError` and `runtimeError` are the builtin exceptions. Only
`jobError` is caught by the row loop in `ImportRun.run`. -/
inductive PyError
  | jobError (msg : String)
  | typeError (msg : String)
  | runtimeError (msg : String)
deriving Repr, DecidableEq

/-- Embedding of `ImportJob.access`: the source evaluates `URIRef[self.config.access]`,
which subscripts the `URIRef` class instead of calling it, so whenever
`config.access` is set the property raises `TypeError`; with it unset
the property returns `None`. -/
def ImportJob.access (job : ImportJob) : Except PyError (Option String) :=
  match job.config.access with
  | some _ => .error (.typeError "type URIRef is not subscriptable")
  | none => .ok none

/-- Embedding of `ImportJob.member_of`: wraps the configured value in a `URIRef`
(modelled as the underlying string) or returns `None`. -/
def ImportJob.member_of (job : ImportJob) : Option String :=
  job.config.member_of

/-- The URI string constant `plastron.namespaces.umdaccess.Published`. -/
def umdaccessPublished : String := "http://vocab.lib.umd.edu/access#Published"

/-- The URI string constant `plastron.namespaces.umdaccess.Hidden`. -/
def umdaccessHidden : String := "http://vocab.lib.umd.edu/access#Hidden"

/-- A validation entry (`plastron.rdfmapping.validation`):
`ValidationSuccess` or `ValidationFailure`, each with a message; the
string form used in failure reasons is the message. -/
inductive VResult
  | success (message : String)
  | failure (message : String)
deriving Repr, DecidableEq

/-- Whether a validation entry passed. -/
def VResult.passed : VResult → Bool
  | .success _ => true
  | .failure _ => false

/-- The message of a validation entry. -/
def VResult.message : VResult → String
  | .success m => m
  | .failure m => m

/-- Embedding of `ValidationResultsDict`: an insertion-ordered mapping from entry name
to validation result. -/
abbrev VDict := List (String × VResult)

/-- Dictionary assignment `d[k] = v`: replace in place, else append. -/
def vset : VDict → String → VResult → VDict
  | [], k, v => [(k, v)]
  | (k', v') :: rest, k, v =>
    if k' = k then (k', v) :: rest else (k', v') :: vset rest k v

/-- Dictionary entry lookup by key (`k in d` / `d[k]`). -/
def vget : VDict → String → Option VResult
  | [], _ => none
  | (k', v) :: rest, k => if k' = k then some v else vget rest k

/-- Embedding of `ValidationResultsDict.ok`: all entries passed. -/
def vOk (d : VDict) : Bool :=
  (d : List (String × VResult)).all (fun p => p.2.passed)

/-- Embedding of `ValidationResultsDict.failures()`: the failing entries, in order. -/
def vFailures (d : VDict) : List (String × VResult) :=
  (d : List (String × VResult)).filter (fun p => !p.2.passed)

/-- The domain object materialized for a row (the RDF model instance):
its identity (`uri`), the accessors used by the ledgers
(`identifier`, `title`), the change-detection flag (`has_changes`), the
RDF type set and collection membership mutated by `create_resource`,
and the outcome of its own field-level validation
(`self.item.validate()`, which may raise `ValidationError`). -/
structure Item where
  uri : String
  identifier : String
  title : String
  has_changes : Bool
  rdf_type : List String
  member_of : Option String
  validation : Except String VDict
deriving Repr

/-- A well-formed metadata row as produced by the spreadsheet adapter:
line reference, the computed item identifier, referenced file names,
per-row publish/hidden flags, and `get_object` (materialize the domain
object; the argument is `read_from_repo`). -/
structure Row where
  line_reference : String
  identifier : String
  filenames : List String
  item_filenames : List String
  publish : Bool
  hidden : Bool
  get_object : Bool → Item

/-- A streamed metadata record: a well-formed row or an invalid-row
marker (`plastron.jobs.imports.spreadsheet.InvalidRow`). -/
inductive MetaRow
  | invalidRow (line_reference : String) (reason : String)
  | row (r : Row)

/-- Abstract environment for the effectful collaborators: file existence
answers for resolved `BinarySource` handles, the outcomes of the two
kinds of repository writes (create-in-transaction and patch-update,
errors carrying the underlying exception message), and the wall-clock
timestamp string used in ledger rows. -/
structure RepoEnv where
  fileExists : BinarySource → Bool
  createOutcome : Item → Except String Unit
  patchOutcome : Item → Except String Unit
  now : String

/-- Embedding of `ImportRow.validate_files`: the names whose resolved source does not
exist, reported as one success or one failure entry whose message
enumerates exactly the missing names. `base_location` is
`self.job.config.binaries_location` (guaranteed present by the run's
binaries guard whenever files are referenced). -/
def ImportRow.validate_files (env : RepoEnv) (job : ImportJob)
    (base_location : String) (filenames : List String) : VResult :=
  let missing_files := filenames.filter
    (fun name => !(env.fileExists (job.get_source base_location name)))
  if missing_files.length = 0 then
    .success "All files present"
  else
    .failure ("Missing " ++ toString missing_files.length ++ " files: "
      ++ String.intercalate ";" missing_files)

/-- Embedding of `ImportRow.validate_item`: the item's own validation results with the
two synthetic `FILES` and `ITEM_FILES` entries assigned; a
`ValidationError` from the rule engine becomes a fatal `RuntimeError`. -/
def ImportRow.validate_item (env : RepoEnv) (job : ImportJob) (row : Row)
    (item : Item) : Except PyError VDict :=
  match item.validation with
  | .error e => .error (.runtimeError ("Unable to run validation: " ++ e))
  | .ok results =>
    .ok (vset
          (vset results "FILES"
            (ImportRow.validate_files env job
              (job.config.binaries_location.getD "") row.filenames))
          "ITEM_FILES"
          (ImportRow.validate_files env job
            (job.config.binaries_location.getD "") row.item_filenames))

/-- Embedding of `plastron.jobs.imports.ImportedItemStatus`. -/
inductive ImportedItemStatus
  | CREATED
  | MODIFIED
  | UNCHANGED
deriving Repr, DecidableEq

/-- The `.value` string of an `ImportedItemStatus`. -/
def ImportedItemStatus.value : ImportedItemStatus → String
  | .CREATED => "created"
  | .MODIFIED => "modified"
  | .UNCHANGED => "unchanged"

/-- Repository write operations issued by a successful
`ImportRow.update_repo`: one transactional create, or one PATCH update. -/
inductive RepoOp
  | createOp
  | patchOp
deriving Repr, DecidableEq

/-- Embedding of `ImportRow.create_resource`: evaluate `self.job.access` (which raises
whenever an access class is configured), tag the item with access class,
collection membership, and the per-row publish/hidden markers, then
create the resource tree inside one transaction; a `ClientError` there
becomes a `JobError`. Text extraction (`annotate_from_files`) and the
page/file attachment happen inside the same transaction and are
abstracted into `env.createOutcome`; they do not touch the fields
modelled on `Item`. Returns the tagged item on success. -/
def ImportRow.create_resource (env : RepoEnv) (job : ImportJob) (row : Row)
    (item : Item) : Except PyError Item :=
  match job.access with
  | .error e => .error e
  | .ok acc =>
    let i1 := match acc with
      | some a => { item with rdf_type := addKey item.rdf_type a }
      | none => item
    let i2 := match job.member_of with
      | some m => { i1 with member_of := some m }
      | none => i1
    let i3 := if row.publish
      then { i2 with rdf_type := addKey i2.rdf_type umdaccessPublished }
      else i2
    let i4 := if row.hidden
      then { i3 with rdf_type := addKey i3.rdf_type umdaccessHidden }
      else i3
    match env.createOutcome i4 with
    | .error e => .error (.jobError ("Creating item failed: " ++ e))
    | .ok _ => .ok i4

/-- Embedding of `ImportRow.update_repo`: the three-way decision. A placeholder
identity (`urn:uuid:` prefix) takes the creation path and returns
`CREATED`; otherwise a changed item issues one PATCH update (a
`RepositoryError` there becomes a `JobError`) and returns `MODIFIED`;
otherwise nothing is written and the result is `UNCHANGED`. The second
component lists the repository write operations performed. -/
def ImportRow.update_repo (env : RepoEnv) (job : ImportJob) (row : Row)
    (item : Item) : Except PyError (ImportedItemStatus × List RepoOp) :=
  if pyStartsWith item.uri "urn:uuid:" then
    match ImportRow.create_resource env job row item with
    | .error e => .error e
    | .ok _ => .ok (.CREATED, [.createOp])
  else if item.has_changes then
    match env.patchOutcome item with
    | .error e => .error (.jobError ("Updating item failed: " ++ e))
    | .ok _ => .ok (.MODIFIED, [.patchOp])
  else
    .ok (.UNCHANGED, [])

/-- A ledger row as built by `ImportRun.drop_invalid` / `drop_failed`
and `ImportJob.complete`: `id` is the item's identifier (or the line
reference when there is no item), `last` is the final field
(`reason` for the dropped ledgers, `status` for the completed ledger). -/
def ledgerRow (env : RepoEnv) (item : Option Item) (line_reference : String)
    (lastField : String) (lastValue : String) : LogRow :=
  ⟨[("id", match item with
          | some i => i.identifier
          | none => line_reference),
    ("timestamp", env.now),
    ("title", match item with
          | some i => i.title
          | none => ""),
    ("uri", match item with
          | some i => i.uri
          | none => ""),
    (lastField, lastValue)]⟩

/-- Embedding of `ImportJob.complete`: append the item to the completed ledger with
the status value as the final field. -/
def ImportJob.complete (env : RepoEnv) (log : ItemLog) (item : Item)
    (status : ImportedItemStatus) : ItemLog :=
  log.append (ledgerRow env (some item) "" "status" status.value)

/-- The evolving state of one `ImportRun.run` invocation: the counters,
the job's completed ledger, the run's invalid and failed ledgers, the
repository write operations issued so far, and the counter snapshots
yielded so far (the `count` mapping of each yielded status dictionary;
the accompanying wall-clock `time` entry is not modelled). -/
structure RunState where
  count : Counters
  completed_log : ItemLog
  invalid_items : ItemLog
  failed_items : ItemLog
  repo_ops : List RepoOp
  snapshots : List Counters

/-- Embedding of `ImportRun.drop_invalid` applied to a run state. -/
def RunState.drop_invalid (st : RunState) (env : RepoEnv) (item : Option Item)
    (line_reference : String) (reason : String) : RunState :=
  { st with invalid_items :=
      st.invalid_items.append (ledgerRow env item line_reference "reason" reason) }

/-- Embedding of `ImportRun.drop_failed` applied to a run state. -/
def RunState.drop_failed (st : RunState) (env : RepoEnv) (item : Option Item)
    (line_reference : String) (reason : String) : RunState :=
  { st with failed_items :=
      st.failed_items.append (ledgerRow env item line_reference "reason" reason) }

/-- One iteration of the row loop of `ImportRun.run` (lines 515-573 of
the source). Mirrors the source's control flow: invalid-row markers are
dropped to the invalid ledger and the loop continues; otherwise the
row's object is materialized, the files counter is bumped, validation
runs (a `ValidationError` is fatal), invalid items are dropped and the
loop continues, validate-only mode continues without committing, and
otherwise the commit is attempted, recording success in the completed
ledger and counters or a `JobError` in the failed ledger and error
counter; only rows reaching the commit attempt fall through to the
`yield` that records a counter snapshot. -/
def processRow (env : RepoEnv) (job : ImportJob) (validate_only : Bool)
    (st : RunState) (mrow : MetaRow) : Except PyError RunState :=
  match mrow with
  | .invalidRow lr reason =>
    .ok (st.drop_invalid env none lr reason)
  | .row row =>
    let item := row.get_object (!validate_only)
    let c1 := cinc st.count "files" row.filenames.length
    match ImportRow.validate_item env job row item with
    | .error e => .error e
    | .ok validation =>
      if vOk validation then
        let c2 := cinc c1 "valid_items" 1
        if validate_only then
          .ok { st with count := c2 }
        else
          match ImportRow.update_repo env job row item with
          | .ok (status, ops) =>
            let completed := ImportJob.complete env st.completed_log item status
            let c3 := match status with
              | .CREATED => cinc c2 "created_items" 1
              | .MODIFIED => cinc c2 "updated_items" 1
              | .UNCHANGED => cinc (cinc c2 "unchanged_items" 1) "skipped_items" 1
            .ok { st with
                    count := c3
                    completed_log := completed
                    repo_ops := st.repo_ops ++ ops
                    snapshots := st.snapshots ++ [c3] }
          | .error (.jobError msg) =>
            let c3 := cinc c2 "items_with_errors" 1
            .ok ({ st with
                    count := c3
                    snapshots := st.snapshots ++ [c3]
                  }.drop_failed env (some item) row.line_reference msg)
          | .error e => .error e
      else
        let c2 := cinc c1 "invalid_items" 1
        let reasons := (vFailures validation).map
          (fun p => p.1 ++ " " ++ p.2.message)
        .ok ({ st with count := c2 }.drop_invalid env (some item)
              row.line_reference
              ("Validation failures: " ++ String.intercalate "; " reasons))

/-- The row loop: fold `processRow` over the streamed rows, stopping at
the first uncaught exception (which the generator raises after the
already-yielded snapshots). -/
def runRows (env : RepoEnv) (job : ImportJob) (validate_only : Bool) :
    RunState → List MetaRow → RunState × Option PyError
  | st, [] => (st, none)
  | st, mrow :: rest =>
    match processRow env job validate_only st mrow with
    | .ok st' => runRows env job validate_only st' rest
    | .error e => (st, some e)

/-- The metadata source as consumed by `ImportRun.run`
(`MetadataSpreadsheet`): total row count, binaries flag, and the rows in
source order. -/
structure Metadata where
  total : Nat
  has_binaries : Bool
  rows : List MetaRow

/-- Modelled from the spec: the `completed` filter of
`MetadataSpreadsheet.rows` (the spreadsheet adapter is not part of the
embedded sources). The spec: the row stream applies "a `completed`
filter that skips any row whose computed item identifier is already
present in the job's completed ledger"; invalid-row markers carry no
identifier and pass through. The `limit` and `percentage` filters are
orthogonal to the verified claims and are not modelled. -/
def rowStream (rows : List MetaRow) (completed : ItemLog) : List MetaRow :=
  rows.filter (fun mrow =>
    match mrow with
    | .invalidRow _ _ => true
    | .row r => !(completed.contains r.identifier))

/-- The terminal status dictionary returned by `ImportRun.run`
(the `validation` reports list is not modelled). -/
structure RunResult where
  type : String
  count : Counters

/-- The initial counters of `ImportRun.run`, in source order. -/
def initialCount (metadata : Metadata) (job : ImportJob) : Counters :=
  [("total_items", metadata.total),
   ("rows", 0),
   ("errors", 0),
   ("initially_completed_items", job.completed_log.length),
   ("files", 0),
   ("valid_items", 0),
   ("invalid_items", 0),
   ("created_items", 0),
   ("updated_items", 0),
   ("unchanged_items", 0),
   ("skipped_items", 0)]

/-- The run state at the start of the row loop: initial counters, the
job's completed ledger, fresh per-run dropped-item ledgers (their files
do not exist yet), no repository writes, no snapshots. -/
def initState (metadata : Metadata) (job : ImportJob) : RunState where
  count := initialCount metadata job
  completed_log := job.completed_log
  invalid_items := ItemLog.fromFile ["id", "timestamp", "title", "uri", "reason"] "id" none
  failed_items := ItemLog.fromFile ["id", "timestamp", "title", "uri", "reason"] "id" none
  repo_ops := []
  snapshots := []

/-- Embedding of `ImportRun.run`: the binaries-location guard, the counter
initialization, the row loop over the completed-filtered stream, and
the terminal classification. Returns the final run state (with the
yielded snapshots) together with the terminal result, or the fatal
exception. The pre-loop steps that touch only external collaborators
(run directory creation, metadata file copy, model class loading) are
not modelled. -/
def ImportRun.run (env : RepoEnv) (job : ImportJob) (metadata : Metadata)
    (validate_only : Bool) : RunState × Except PyError RunResult :=
  if metadata.has_binaries ∧ job.config.binaries_location = none then
    (initState metadata job, .error (.runtimeError
      "Must specify --binaries-location if the metadata has a FILES column"))
  else
    match runRows env job validate_only (initState metadata job)
        (rowStream metadata.rows job.completed_log) with
    | (st, some e) => (st, .error e)
    | (st, none) =>
      let result_type :=
        if validate_only then
          if cget st.count "invalid_items" = 0 then "validate_success"
          else "validate_failed"
        else
          if st.completed_log.length = cget st.count "total_items" then "import_complete"
          else "import_incomplete"
      (st, .ok { type := result_type, count := st.count })

/-- The counter keys initialized by `ImportRun.run` (the keys of every
yielded snapshot's counters mapping). -/
def counterKeysListed : List String :=
  ["total_items", "rows", "errors", "initially_completed_items", "files",
   "valid_items", "invalid_items", "created_items", "updated_items",
   "unchanged_items", "skipped_items"]

/-- Whether a streamed record reaches the commit attempt of the row
loop: a well-formed row, in non-validate-only mode, whose validation
runs without a fatal error and passes. Exactly these rows fall through
to the loop's `yield`. -/
def commitStage (env : RepoEnv) (job : ImportJob) (validate_only : Bool) :
    MetaRow → Bool
  | .invalidRow _ _ => false
  | .row row =>
    !validate_only &&
      (match ImportRow.validate_item env job row (row.get_object (!validate_only)) with
       | .ok v => vOk v
       | .error _ => false)

/-- The counter keys the row loop ever increments. -/
def incrementedKeys : List String :=
  ["files", "valid_items", "invalid_items", "created_items", "updated_items",
   "unchanged_items", "skipped_items", "items_with_errors"]

/-- All the listed counter keys are present in a counters mapping. -/
def keysPresent (c : Counters) : Prop :=
  ∀ k ∈ counterKeysListed, (cfind c k).isSome

/-! Concrete fixtures used by witnesses and counterexamples. -/

/-- A benign environment: every file exists, every repository write
succeeds. -/
def envW : RepoEnv where
  fileExists := fun _ => true
  createOutcome := fun _ => .ok ()
  patchOutcome := fun _ => .ok ()
  now := "2024-01-01T00:00:00"

/-- An environment whose PATCH updates are rejected by the repository. -/
def envPatchFail : RepoEnv where
  fileExists := fun _ => true
  createOutcome := fun _ => .ok ()
  patchOutcome := fun _ => .error "412 Precondition Failed"
  now := "2024-01-01T00:00:00"

/-- An environment in which `/data/b.tif` does not exist. -/
def envMiss : RepoEnv where
  fileExists := fun s => s ≠ .localFileSource "/data/b.tif"
  createOutcome := fun _ => .ok ()
  patchOutcome := fun _ => .ok ()
  now := "2024-01-01T00:00:00"

/-- A job with local binaries, no access class, no collection. -/
def jobW : ImportJob where
  config := { job_id := "import-1", model := some "Item", access := none,
              member_of := none, container := some "/objects",
              binaries_location := some "/data", extract_text_types := none }
  ssh_private_key := some "/home/u/.ssh/id_rsa"
  completed_log := ItemLog.fromFile ["id", "timestamp", "title", "uri", "status"] "id" none

/-- Variant of `jobW` with an access class configured. -/
def jobAcc : ImportJob :=
  { jobW with config :=
      { jobW.config with access := some "http://vocab.lib.umd.edu/access#Campus" } }

/-- Variant of `jobW` with a collection membership configured. -/
def jobMem : ImportJob :=
  { jobW with config :=
      { jobW.config with member_of := some "http://localhost:8080/rest/collections/1" } }

/-- A new item (placeholder `urn:uuid:` identity), valid metadata. -/
def itemNew : Item where
  uri := "urn:uuid:1234"
  identifier := "item-1"
  title := "Item One"
  has_changes := false
  rdf_type := []
  member_of := none
  validation := .ok []

/-- An existing item (repository identity) with pending changes. -/
def itemChanged : Item where
  uri := "http://localhost:8080/rest/objects/42"
  identifier := "item-42"
  title := "Item Forty-Two"
  has_changes := true
  rdf_type := []
  member_of := none
  validation := .ok []

/-- An existing item with no detected changes. -/
def itemSame : Item :=
  { itemChanged with has_changes := false }

/-- A row materializing `itemNew`, no files, no flags. -/
def rowNew : Row where
  line_reference := "source.csv:2"
  identifier := "item-1"
  filenames := []
  item_filenames := []
  publish := false
  hidden := false
  get_object := fun _ => itemNew

/-- A row materializing `itemNew` that publishes and hides it. -/
def rowFlags : Row :=
  { rowNew with publish := true, hidden := true }

/-- A row materializing `itemChanged`. -/
def rowChanged : Row :=
  { rowNew with identifier := "item-42", line_reference := "source.csv:3",
                get_object := fun _ => itemChanged }

/-- A row referencing one existing and one missing file. -/
def rowMiss : Row :=
  { rowNew with filenames := ["a.tif", "b.tif"] }

/-- Metadata with a single invalid-row marker. -/
def mdInvalid : Metadata where
  total := 1
  has_binaries := false
  rows := [.invalidRow "source.csv:2" "could not parse"]

/-- Metadata with the single valid row `rowNew`. -/
def mdOne : Metadata where
  total := 1
  has_binaries := false
  rows := [.row rowNew]

/-- A completed ledger already holding the key of `rowNew`. -/
def completedW : ItemLog :=
  ItemLog.fromFile ["id", "timestamp", "title", "uri", "status"] "id"
    (some [⟨[("id", "item-1"), ("timestamp", "t"), ("title", "Item One"),
             ("uri", "http://localhost:8080/rest/objects/1"), ("status", "created")]⟩])

/-- A row whose identifier is not yet completed. -/
def rowExtra : Row :=
  { rowNew with identifier := "item-2", line_reference := "source.csv:4" }

/-- The terminal result of running `mdOne` under `envW` and `jobW`. -/
def resOneW : RunResult where
  type := "import_complete"
  count := [("total_items", 1), ("rows", 0), ("errors", 0),
    ("initially_completed_items", 0), ("files", 0), ("valid_items", 1),
    ("invalid_items", 0), ("created_items", 1), ("updated_items", 0),
    ("unchanged_items", 0), ("skipped_items", 0)]

/-! ### Helper lemmas on counters, key sets, and validation dictionaries -/

theorem cfind_cinc_self (c : Counters) (k : String) (n : Nat) :
    cfind (cinc c k n) k = some (cget c k + n) := by
  induction c with
  | nil => simp [cinc, cfind, cget]
  | cons p rest ih =>
    obtain ⟨k', v⟩ := p
    by_cases h : k' = k
    · subst h
      simp [cinc, cfind, cget]
    · have htail : cget ((k', v) :: rest) k = cget rest k := by
        simp [cget, cfind, h]
      simp [cinc, cfind, h, ih, htail]

theorem cfind_cinc_ne (c : Counters) (k k' : String) (n : Nat) (h : k' ≠ k) :
    cfind (cinc c k n) k' = cfind c k' := by
  induction c with
  | nil => simp [cinc, cfind, Ne.symm h]
  | cons p rest ih =>
    obtain ⟨k'', v⟩ := p
    by_cases hk : k'' = k
    · subst hk
      simp [cinc, cfind, Ne.symm h]
    · by_cases hk' : k'' = k'
      · subst hk'
        simp [cinc, cfind, hk]
      · simp [cinc, cfind, hk, hk', ih]

theorem cget_cinc_self (c : Counters) (k : String) (n : Nat) :
    cget (cinc c k n) k = cget c k + n := by
  simp [cget, cfind_cinc_self]

theorem cget_cinc_ne (c : Counters) (k k' : String) (n : Nat) (h : k' ≠ k) :
    cget (cinc c k n) k' = cget c k' := by
  simp [cget, cfind_cinc_ne c k k' n h]

theorem cfind_cinc_isSome (c : Counters) (k k' : String) (n : Nat)
    (h : (cfind c k').isSome) : (cfind (cinc c k n) k').isSome := by
  by_cases hk : k' = k
  · subst hk
    simp [cfind_cinc_self]
  · rwa [cfind_cinc_ne c k k' n hk]

theorem mem_addKey (ks : List String) (k k' : String) :
    k' ∈ addKey ks k ↔ k' ∈ ks ∨ k' = k := by
  unfold addKey
  split
  · rename_i h
    constructor
    · exact Or.inl
    · rintro (h' | rfl)
      · exact h'
      · exact h
  · simp [List.mem_append]

theorem addKey_of_mem (ks : List String) (k : String) (h : k ∈ ks) :
    addKey ks k = ks := by
  simp [addKey, h]

theorem loadKeys_cons (kf : String) (ks : List String) (r : LogRow) (rows : List LogRow) :
    loadKeys kf ks (r :: rows) = loadKeys kf (addKey ks (rowKey kf r)) rows := rfl

theorem loadKeys_snoc (kf : String) (ks : List String) (rows : List LogRow) (r : LogRow) :
    loadKeys kf ks (rows ++ [r]) = addKey (loadKeys kf ks rows) (rowKey kf r) := by
  simp [loadKeys, List.foldl_append]

theorem loadKeys_eq_append (kf : String) :
    ∀ (rows : List LogRow) (acc : List String),
      (rows.map (rowKey kf)).Nodup →
      (∀ k ∈ rows.map (rowKey kf), k ∉ acc) →
      loadKeys kf acc rows = acc ++ rows.map (rowKey kf) := by
  intro rows
  induction rows with
  | nil => intro acc _ _; simp [loadKeys]
  | cons r rs ih =>
    intro acc hnd hdisj
    have hk : rowKey kf r ∉ acc := hdisj _ (by simp)
    have hstep : addKey acc (rowKey kf r) = acc ++ [rowKey kf r] := by
      simp [addKey, hk]
    have hnd2 : (rowKey kf r :: rs.map (rowKey kf)).Nodup := by
      simpa using hnd
    have hnd' : (rs.map (rowKey kf)).Nodup := (List.nodup_cons.mp hnd2).2
    have hhead : rowKey kf r ∉ rs.map (rowKey kf) := (List.nodup_cons.mp hnd2).1
    have hdisj' : ∀ k ∈ rs.map (rowKey kf), k ∉ acc ++ [rowKey kf r] := by
      intro k hkmem
      simp only [List.mem_append, List.mem_singleton]
      rintro (hka | rfl)
      · exact hdisj k (by simp [hkmem]) hka
      · exact hhead hkmem
    rw [loadKeys_cons, hstep, ih (acc ++ [rowKey kf r]) hnd' hdisj']
    simp

theorem foldl_append_spec (rows : List LogRow) (log : ItemLog) :
    rows.foldl ItemLog.append log =
      ⟨log.fieldnames, log.keyfield, log.file_rows ++ rows,
        loadKeys log.keyfield log.item_keys rows⟩ := by
  induction rows generalizing log with
  | nil =>
    cases log
    simp [loadKeys]
  | cons r rs ih =>
    rw [List.foldl_cons, ih]
    simp [ItemLog.append, loadKeys_cons]

theorem vget_vset_self (d : VDict) (k : String) (v : VResult) :
    vget (vset d k v) k = some v := by
  induction d with
  | nil => simp [vset, vget]
  | cons p rest ih =>
    obtain ⟨k', v'⟩ := p
    by_cases h : k' = k
    · subst h
      simp [vset, vget]
    · simp [vset, vget, h, ih]

theorem vget_vset_ne (d : VDict) (k k' : String) (v : VResult) (h : k' ≠ k) :
    vget (vset d k v) k' = vget d k' := by
  induction d with
  | nil => simp [vset, vget, Ne.symm h]
  | cons p rest ih =>
    obtain ⟨k'', v'⟩ := p
    by_cases hk : k'' = k
    · subst hk
      simp [vset, vget, Ne.symm h]
    · by_cases hk' : k'' = k'
      · subst hk'
        simp [vset, vget, hk]
      · simp [vset, vget, hk, hk', ih]

theorem vget_mem (d : VDict) (k : String) (v : VResult) (h : vget d k = some v) :
    (k, v) ∈ d := by
  induction d with
  | nil => simp [vget] at h
  | cons p rest ih =>
    obtain ⟨k', v'⟩ := p
    by_cases hk : k' = k
    · subst hk
      simp [vget] at h
      subst h
      exact List.mem_cons_self _ _
    · simp [vget, hk] at h
      exact List.mem_cons_of_mem _ (ih h)

theorem vOk_false_of_vget_failure (d : VDict) (k m : String)
    (h : vget d k = some (.failure m)) : vOk d = false := by
  have hmem := vget_mem d k _ h
  cases hv : vOk d with
  | false => rfl
  | true =>
    have hall := List.all_eq_true.mp hv _ hmem
    simp [VResult.passed] at hall

/-! ### Helper lemmas on the row loop -/

theorem keysPresent_cinc (c : Counters) (k : String) (n : Nat)
    (h : keysPresent c) : keysPresent (cinc c k n) := by
  intro k' hk'
  exact cfind_cinc_isSome c k k' n (h k' hk')

theorem processRow_effects (env : RepoEnv) (job : ImportJob) (vo : Bool)
    (st st' : RunState) (mrow : MetaRow)
    (h : processRow env job vo st mrow = .ok st') :
    (∀ k, k ∉ incrementedKeys → cget st'.count k = cget st.count k)
    ∧ st'.snapshots = st.snapshots
        ++ (if commitStage env job vo mrow then [st'.count] else [])
    ∧ (keysPresent st.count → keysPresent st'.count) := by
  cases mrow with
  | invalidRow lr reason =>
    simp only [processRow] at h
    injection h with h
    subst h
    refine ⟨fun k _ => rfl, ?_, fun hk => hk⟩
    simp [commitStage, RunState.drop_invalid]
  | row r =>
    simp only [processRow] at h
    split at h
    · rename_i e heq
      simp at h
    · rename_i v heq
      split at h
      · rename_i hok
        split at h
        · rename_i hvo
          injection h with h
          subst h
          refine ⟨?_, ?_, ?_⟩
          · intro k hk
            simp only [incrementedKeys, List.mem_cons, List.mem_singleton, not_or] at hk
            obtain ⟨h1, h2, h3, h4, h5, h6, h7, h8, -⟩ := hk
            rw [cget_cinc_ne _ _ _ _ h2, cget_cinc_ne _ _ _ _ h1]
          · simp [commitStage, hvo]
          · intro hp
            exact keysPresent_cinc _ _ _ (keysPresent_cinc _ _ _ hp)
        · rename_i hvo
          split at h
          · rename_i status ops hur
            cases status with
            | CREATED =>
              injection h with h
              subst h
              refine ⟨?_, ?_, ?_⟩
              · intro k hk
                simp only [incrementedKeys, List.mem_cons, List.mem_singleton, not_or] at hk
                obtain ⟨h1, h2, h3, h4, h5, h6, h7, h8, -⟩ := hk
                rw [cget_cinc_ne _ _ _ _ h4, cget_cinc_ne _ _ _ _ h2,
                  cget_cinc_ne _ _ _ _ h1]
              · have hvo' : vo = false := by
                  cases vo
                  · rfl
                  · exact absurd rfl hvo
                subst hvo'
                simp only [Bool.not_false] at heq
                simp [commitStage, heq, hok]
              · intro hp
                exact keysPresent_cinc _ _ _
                  (keysPresent_cinc _ _ _ (keysPresent_cinc _ _ _ hp))
            | MODIFIED =>
              injection h with h
              subst h
              refine ⟨?_, ?_, ?_⟩
              · intro k hk
                simp only [incrementedKeys, List.mem_cons, List.mem_singleton, not_or] at hk
                obtain ⟨h1, h2, h3, h4, h5, h6, h7, h8, -⟩ := hk
                rw [cget_cinc_ne _ _ _ _ h5, cget_cinc_ne _ _ _ _ h2,
                  cget_cinc_ne _ _ _ _ h1]
              · have hvo' : vo = false := by
                  cases vo
                  · rfl
                  · exact absurd rfl hvo
                subst hvo'
                simp only [Bool.not_false] at heq
                simp [commitStage, heq, hok]
              · intro hp
                exact keysPresent_cinc _ _ _
                  (keysPresent_cinc _ _ _ (keysPresent_cinc _ _ _ hp))
            | UNCHANGED =>
              injection h with h
              subst h
              refine ⟨?_, ?_, ?_⟩
              · intro k hk
                simp only [incrementedKeys, List.mem_cons, List.mem_singleton, not_or] at hk
                obtain ⟨h1, h2, h3, h4, h5, h6, h7, h8, -⟩ := hk
                rw [cget_cinc_ne _ _ _ _ h7, cget_cinc_ne _ _ _ _ h6,
                  cget_cinc_ne _ _ _ _ h2, cget_cinc_ne _ _ _ _ h1]
              · have hvo' : vo = false := by
                  cases vo
                  · rfl
                  · exact absurd rfl hvo
                subst hvo'
                simp only [Bool.not_false] at heq
                simp [commitStage, heq, hok]
              · intro hp
                exact keysPresent_cinc _ _ _ (keysPresent_cinc _ _ _
                  (keysPresent_cinc _ _ _ (keysPresent_cinc _ _ _ hp)))
          · rename_i msg hur
            injection h with h
            subst h
            refine ⟨?_, ?_, ?_⟩
            · intro k hk
              simp only [incrementedKeys, List.mem_cons, List.mem_singleton, not_or] at hk
              obtain ⟨h1, h2, h3, h4, h5, h6, h7, h8, -⟩ := hk
              simp only [RunState.drop_failed]
              rw [cget_cinc_ne _ _ _ _ h8, cget_cinc_ne _ _ _ _ h2,
                cget_cinc_ne _ _ _ _ h1]
            · have hvo' : vo = false := by
                cases vo
                · rfl
                · exact absurd rfl hvo
              subst hvo'
              simp only [Bool.not_false] at heq
              simp [commitStage, heq, hok, RunState.drop_failed]
            · intro hp
              simp only [RunState.drop_failed]
              exact keysPresent_cinc _ _ _
                (keysPresent_cinc _ _ _ (keysPresent_cinc _ _ _ hp))
          · rename_i e he hur
            simp at h
      · rename_i hok
        injection h with h
        subst h
        refine ⟨?_, ?_, ?_⟩
        · intro k hk
          simp only [incrementedKeys, List.mem_cons, List.mem_singleton, not_or] at hk
          obtain ⟨h1, h2, h3, h4, h5, h6, h7, h8, -⟩ := hk
          simp only [RunState.drop_invalid]
          rw [cget_cinc_ne _ _ _ _ h3, cget_cinc_ne _ _ _ _ h1]
        · have hok' : vOk v = false := by
            cases hv : vOk v
            · rfl
            · exact absurd hv hok
          simp [commitStage, heq, hok', RunState.drop_invalid]
        · intro hp
          simp only [RunState.drop_invalid]
          exact keysPresent_cinc _ _ _ (keysPresent_cinc _ _ _ hp)

theorem runRows_effects (env : RepoEnv) (job : ImportJob) (vo : Bool) :
    ∀ (rows : List MetaRow) (st st' : RunState) (err : Option PyError),
      runRows env job vo st rows = (st', err) →
      (∀ k, k ∉ incrementedKeys → cget st'.count k = cget st.count k)
      ∧ (keysPresent st.count → keysPresent st'.count)
      ∧ (∀ k v, k ∉ incrementedKeys → cget st.count k = v →
          (∀ c ∈ st.snapshots, cget c k = v) → ∀ c ∈ st'.snapshots, cget c k = v)
      ∧ ((keysPresent st.count ∧ ∀ c ∈ st.snapshots, keysPresent c) →
          ∀ c ∈ st'.snapshots, keysPresent c)
      ∧ (err = none →
          st'.snapshots.length
            = st.snapshots.length + rows.countP (commitStage env job vo)) := by
  intro rows
  induction rows with
  | nil =>
    intro st st' err h
    simp only [runRows] at h
    obtain ⟨rfl, rfl⟩ := Prod.mk.injEq .. ▸ h
    exact ⟨fun _ _ => rfl, id, fun k v _ _ h2 => h2, fun hp => hp.2,
      fun _ => by simp⟩
  | cons mrow rest ih =>
    intro st st' err h
    simp only [runRows] at h
    cases hpr : processRow env job vo st mrow with
    | error e =>
      rw [hpr] at h
      obtain ⟨rfl, rfl⟩ := Prod.mk.injEq .. ▸ h
      exact ⟨fun _ _ => rfl, id, fun k v _ _ h2 => h2, fun hp => hp.2,
        fun hc => by simp at hc⟩
    | ok st1 =>
      rw [hpr] at h
      obtain ⟨hA, hB, hC⟩ := processRow_effects env job vo st st1 mrow hpr
      obtain ⟨iA, iB, iC, iD, iE⟩ := ih st1 st' err h
      have hsnap1 : ∀ k v, k ∉ incrementedKeys → cget st.count k = v →
          (∀ c ∈ st.snapshots, cget c k = v) → ∀ c ∈ st1.snapshots, cget c k = v := by
        intro k v hk hv hs c hc
        rw [hB] at hc
        rcases List.mem_append.mp hc with hc | hc
        · exact hs c hc
        · rcases hcs : commitStage env job vo mrow with _ | _
          · rw [hcs] at hc
            simp at hc
          · rw [hcs] at hc
            simp at hc
            subst hc
            rw [hA k hk]
            exact hv
      have hsnapk : keysPresent st.count → (∀ c ∈ st.snapshots, keysPresent c) →
          ∀ c ∈ st1.snapshots, keysPresent c := by
        intro hp hs c hc
        rw [hB] at hc
        rcases List.mem_append.mp hc with hc | hc
        · exact hs c hc
        · rcases hcs : commitStage env job vo mrow with _ | _
          · rw [hcs] at hc
            simp at hc
          · rw [hcs] at hc
            simp at hc
            subst hc
            exact hC hp
      refine ⟨?_, ?_, ?_, ?_, ?_⟩
      · intro k hk
        rw [iA k hk, hA k hk]
      · intro hp
        exact iB (hC hp)
      · intro k v hk hv hs
        exact iC k v hk (by rw [hA k hk]; exact hv) (hsnap1 k v hk hv hs)
      · intro hp
        exact iD ⟨hC hp.1, hsnapk hp.1 hp.2⟩
      · intro herr
        have hlen1 : st1.snapshots.length
            = st.snapshots.length + (if commitStage env job vo mrow then 1 else 0) := by
          rw [hB]
          rcases commitStage env job vo mrow with _ | _ <;> simp
        rw [iE herr, hlen1, List.countP_cons]
        omega

/-! ### Claim theorems -/

/-- C1: a resumed run's row stream excludes every row whose computed
item identifier is already a key of the job's completed ledger — no
well-formed row surviving the completed filter has an identifier
contained in `completed_log`. -/
theorem claim_c1_completed_filter (rows : List MetaRow) (completed : ItemLog)
    (r : Row) (h : MetaRow.row r ∈ rowStream rows completed) :
    completed.contains r.identifier = false := by
  unfold rowStream at h
  have hp := (List.mem_filter.mp h).2
  simpa using hp

/-- Witness for C1: with `item-1` already completed, the stream over a
two-row source keeps only `item-2`, whose identifier is not completed. -/
theorem claim_c1_witness :
    completedW.contains rowExtra.identifier = false := by
  have hmem : MetaRow.row rowExtra ∈
      rowStream [MetaRow.row rowNew, MetaRow.row rowExtra] completedW := by
    have hs : rowStream [MetaRow.row rowNew, MetaRow.row rowExtra] completedW
        = [MetaRow.row rowExtra] := rfl
    rw [hs]
    exact List.mem_singleton_self _
  exact claim_c1_completed_filter _ completedW rowExtra hmem

/-- C2: the three-way decision of `ImportRow.update_repo`: a placeholder
(`urn:uuid:`) identity takes the creation path and returns `CREATED`;
otherwise a changed item issues exactly one patch call and returns
`MODIFIED`; otherwise no repository write is performed and the result is
`UNCHANGED`. -/
theorem claim_c2_update_repo (env : RepoEnv) (job : ImportJob) (row : Row) (item : Item) :
    (pyStartsWith item.uri "urn:uuid:" = true →
      ∀ tagged, ImportRow.create_resource env job row item = .ok tagged →
        ImportRow.update_repo env job row item = .ok (.CREATED, [.createOp]))
    ∧ (pyStartsWith item.uri "urn:uuid:" = false → item.has_changes = true →
        env.patchOutcome item = .ok () →
        ImportRow.update_repo env job row item = .ok (.MODIFIED, [.patchOp]))
    ∧ (pyStartsWith item.uri "urn:uuid:" = false → item.has_changes = false →
        ImportRow.update_repo env job row item = .ok (.UNCHANGED, [])) := by
  refine ⟨?_, ?_, ?_⟩
  · intro h tagged hc
    simp [ImportRow.update_repo, h, hc]
  · intro h hc hp
    simp [ImportRow.update_repo, h, hc, hp]
  · intro h hc
    simp [ImportRow.update_repo, h, hc]

/-- Witness for C2: all three branches at concrete items. -/
theorem claim_c2_witness :
    ImportRow.update_repo envW jobW rowNew itemNew = .ok (.CREATED, [.createOp])
    ∧ ImportRow.update_repo envW jobW rowChanged itemChanged = .ok (.MODIFIED, [.patchOp])
    ∧ ImportRow.update_repo envW jobW rowChanged itemSame = .ok (.UNCHANGED, []) :=
  ⟨(claim_c2_update_repo envW jobW rowNew itemNew).1 (by decide) itemNew rfl,
   (claim_c2_update_repo envW jobW rowChanged itemChanged).2.1 (by decide) rfl rfl,
   (claim_c2_update_repo envW jobW rowChanged itemSame).2.2 (by decide) rfl⟩

/-- C6: ledger round-trip — after N appends with pairwise distinct keys
to a fresh ledger, reconstructing over the same backing file yields
`length = N` and `contains` true for every appended key; appending a row
whose key is already present leaves the reconstructed `length` and every
`contains` answer unchanged. -/
theorem claim_c6_itemlog_roundtrip (fn : List String) (kf : String)
    (rows : List LogRow) (dup : LogRow) (log : ItemLog)
    (hlog : log = rows.foldl ItemLog.append (ItemLog.fromFile fn kf none))
    (hnd : (rows.map (rowKey kf)).Nodup) :
    (log.reload.length = rows.length
      ∧ ∀ r ∈ rows, log.reload.contains (rowKey kf r) = true)
    ∧ (rowKey kf dup ∈ rows.map (rowKey kf) →
        (log.append dup).reload.length = log.reload.length
        ∧ ∀ k, (log.append dup).reload.contains k = log.reload.contains k) := by
  have hspec : log = ⟨fn, kf, rows, loadKeys kf [] rows⟩ := by
    rw [hlog, foldl_append_spec]
    simp [ItemLog.fromFile]
  have hkeys : loadKeys kf [] rows = rows.map (rowKey kf) := by
    have := loadKeys_eq_append kf rows [] hnd (by simp)
    simpa using this
  have hreload : log.reload = ⟨fn, kf, rows, rows.map (rowKey kf)⟩ := by
    rw [hspec]
    simp [ItemLog.reload, ItemLog.fromFile, hkeys]
  refine ⟨⟨?_, ?_⟩, ?_⟩
  · rw [hreload]
    simp [ItemLog.length]
  · intro r hr
    rw [hreload]
    simp only [ItemLog.contains]
    simp [List.mem_map_of_mem _ hr]
  · intro hdup
    have happend : (log.append dup).reload
        = ⟨fn, kf, rows ++ [dup], rows.map (rowKey kf)⟩ := by
      rw [hspec]
      simp [ItemLog.append, ItemLog.reload, ItemLog.fromFile, loadKeys_snoc, hkeys,
        addKey_of_mem _ _ hdup]
    constructor
    · rw [happend, hreload]
      simp [ItemLog.length]
    · intro k
      rw [happend, hreload]
      simp [ItemLog.contains]

/-- Witness for C6: two distinct keys round-trip, then a duplicate
append of the first key changes nothing observable. -/
theorem claim_c6_witness :
    (let rows := [LogRow.mk [("id", "a"), ("status", "created")],
                  LogRow.mk [("id", "b"), ("status", "created")]];
     let log := rows.foldl ItemLog.append
        (ItemLog.fromFile ["id", "status"] "id" none);
     log.reload.length = 2
      ∧ log.reload.contains "a" = true
      ∧ (log.append (LogRow.mk [("id", "a"), ("status", "modified")])).reload.length
          = log.reload.length) := by
  have h := claim_c6_itemlog_roundtrip ["id", "status"] "id"
    [LogRow.mk [("id", "a"), ("status", "created")],
     LogRow.mk [("id", "b"), ("status", "created")]]
    (LogRow.mk [("id", "a"), ("status", "modified")]) _ rfl (by decide)
  refine ⟨h.1.1, ?_, (h.2 (by decide)).1⟩
  have hc := h.1.2 (LogRow.mk [("id", "a"), ("status", "created")]) (by simp)
  simpa [rowKey, LogRow.get] using hc

/-- C8: `ImportJob.get_source` dispatches purely on the base-location
prefix: `zip:` yields an archive handle over the stripped archive path
targeting the relative path; `sftp:` a remote handle carrying the job's
key material; `http:`/`https:` an HTTP handle over the slash-normalized
base followed by the path; `zip+sftp:` an archive-over-remote handle
(an archive handle with the ssh key material); anything else a local
handle at the OS path join — including the two concrete examples. -/
theorem claim_c8_get_source (job : ImportJob) (base_location path : String) :
    (pyStartsWith base_location "zip:" = true →
      job.get_source base_location path
        = .zipFileSource (pyDrop base_location 4) path none)
    ∧ (pyStartsWith base_location "zip:" = false →
       pyStartsWith base_location "sftp:" = true →
      job.get_source base_location path
        = .remoteFileSource (osPathJoin base_location path) job.ssh_private_key)
    ∧ (pyStartsWith base_location "zip:" = false →
       pyStartsWith base_location "sftp:" = false →
       (pyStartsWith base_location "http:" = true ∨ pyStartsWith base_location "https:" = true) →
      job.get_source base_location path
        = .httpFileSource ((if pyEndsWith base_location "/" then base_location
            else base_location ++ "/") ++ path))
    ∧ (pyStartsWith base_location "zip:" = false →
       pyStartsWith base_location "sftp:" = false →
       pyStartsWith base_location "http:" = false →
       pyStartsWith base_location "https:" = false →
       pyStartsWith base_location "zip+sftp:" = true →
      job.get_source base_location path
        = .zipFileSource (pyDrop base_location 4) path job.ssh_private_key)
    ∧ (pyStartsWith base_location "zip:" = false →
       pyStartsWith base_location "sftp:" = false →
       pyStartsWith base_location "http:" = false →
       pyStartsWith base_location "https:" = false →
       pyStartsWith base_location "zip+sftp:" = false →
      job.get_source base_location path
        = .localFileSource (osPathJoin base_location path))
    ∧ job.get_source "zip:/tmp/a.zip" "x/y.tif"
        = .zipFileSource "/tmp/a.zip" "x/y.tif" none
    ∧ job.get_source "/data" "a/b.txt" = .localFileSource "/data/a/b.txt" := by
  refine ⟨?_, ?_, ?_, ?_, ?_, ?_, ?_⟩
  · intro h1
    simp [ImportJob.get_source, h1]
  · intro h1 h2
    simp [ImportJob.get_source, h1, h2]
  · intro h1 h2 h3
    simp [ImportJob.get_source, h1, h2, h3]
  · intro h1 h2 h3 h4 h5
    simp [ImportJob.get_source, h1, h2, h3, h4, h5]
  · intro h1 h2 h3 h4 h5
    simp [ImportJob.get_source, h1, h2, h3, h4, h5]
  · rfl
  · rfl

/-- Witness for C8: the dispatch rules applied at concrete locations,
one per scheme. -/
theorem claim_c8_witness :
    jobW.get_source "zip:/tmp/a.zip" "x/y.tif"
      = .zipFileSource "/tmp/a.zip" "x/y.tif" none
    ∧ jobW.get_source "sftp:user@host/dir" "f.txt"
      = .remoteFileSource "sftp:user@host/dir/f.txt" (some "/home/u/.ssh/id_rsa")
    ∧ jobW.get_source "http://example.com/base" "f.txt"
      = .httpFileSource "http://example.com/base/f.txt"
    ∧ jobW.get_source "zip+sftp:user@host/a.zip" "x.tif"
      = .zipFileSource "sftp:user@host/a.zip" "x.tif" (some "/home/u/.ssh/id_rsa")
    ∧ jobW.get_source "/data" "a/b.txt" = .localFileSource "/data/a/b.txt" := by
  refine ⟨?_, ?_, ?_, ?_, ?_⟩
  · exact (claim_c8_get_source jobW "zip:/tmp/a.zip" "x/y.tif").1 (by decide)
  · exact (claim_c8_get_source jobW "sftp:user@host/dir" "f.txt").2.1 (by decide) (by decide)
  · exact (claim_c8_get_source jobW "http://example.com/base" "f.txt").2.2.1
      (by decide) (by decide) (Or.inl (by decide))
  · exact (claim_c8_get_source jobW "zip+sftp:user@host/a.zip" "x.tif").2.2.2.1
      (by decide) (by decide) (by decide) (by decide) (by decide)
  · exact (claim_c8_get_source jobW "/data" "a/b.txt").2.2.2.2.1
      (by decide) (by decide) (by decide) (by decide) (by decide)

/-- C9: the claim says a configured access class is added to a new
item's types before creation; in the source `ImportJob.access` evaluates
`URIRef[self.config.access]`, subscripting the class, so whenever the
access class is configured the property raises `TypeError` and the
creation path crashes instead of tagging and returning `CREATED` (the
sibling `member_of` property calls `URIRef(...)`, and the
collection-membership and publish/hidden tagging do work). -/
theorem claim_c9_access_bug :
    ImportJob.access jobAcc = .error (.typeError "type URIRef is not subscriptable")
    ∧ ImportRow.create_resource envW jobAcc rowNew itemNew
        = .error (.typeError "type URIRef is not subscriptable")
    ∧ ImportRow.update_repo envW jobAcc rowNew itemNew
        = .error (.typeError "type URIRef is not subscriptable")
    ∧ ImportRow.create_resource envW jobMem rowFlags itemNew
        = .ok { itemNew with
                  rdf_type := [umdaccessPublished, umdaccessHidden]
                  member_of := some "http://localhost:8080/rest/collections/1" } :=
  ⟨rfl, rfl, rfl, rfl⟩

/-- C3: when all rows are exhausted, the terminal result type is, in
validate-only mode, `validate_success` iff the invalid-items count is
zero (else `validate_failed`); otherwise `import_complete` iff the
completed ledger's size equals the metadata's total row count (else
`import_incomplete`). -/
theorem claim_c3_terminal (env : RepoEnv) (job : ImportJob) (metadata : Metadata)
    (vo : Bool) (st : RunState) (res : RunResult)
    (h : ImportRun.run env job metadata vo = (st, .ok res)) :
    (vo = true →
      ((res.type = "validate_success" ↔ cget st.count "invalid_items" = 0)
       ∧ (res.type = "validate_failed" ↔ cget st.count "invalid_items" ≠ 0)))
    ∧ (vo = false →
      ((res.type = "import_complete" ↔ st.completed_log.length = metadata.total)
       ∧ (res.type = "import_incomplete" ↔ st.completed_log.length ≠ metadata.total))) := by
  unfold ImportRun.run at h
  split at h
  · simp at h
  · cases hrr : runRows env job vo (initState metadata job)
        (rowStream metadata.rows job.completed_log) with
    | mk st1 err =>
      rw [hrr] at h
      cases err with
      | some e => simp at h
      | none =>
        simp only [Prod.mk.injEq, Except.ok.injEq] at h
        obtain ⟨rfl, rfl⟩ := h
        have heff := runRows_effects env job vo
          (rowStream metadata.rows job.completed_log) (initState metadata job)
          st1 none hrr
        have htotal : cget st1.count "total_items" = metadata.total := by
          rw [heff.1 "total_items" (by decide)]
          simp [initState, initialCount, cget, cfind]
        constructor
        · intro hvo
          subst hvo
          have htype :
              ({ type := if true = true then
                    if cget st1.count "invalid_items" = 0 then "validate_success"
                    else "validate_failed"
                  else
                    if st1.completed_log.length = cget st1.count "total_items" then
                      "import_complete"
                    else "import_incomplete",
                 count := st1.count } : RunResult).type
              = if cget st1.count "invalid_items" = 0 then "validate_success"
                else "validate_failed" := by
            simp
          rw [htype]
          by_cases hz : cget st1.count "invalid_items" = 0
          · rw [if_pos hz]
            exact ⟨⟨fun _ => hz, fun _ => rfl⟩,
              ⟨fun heq => absurd heq (by decide), fun h' => (h' hz).elim⟩⟩
          · rw [if_neg hz]
            exact ⟨⟨fun heq => absurd heq (by decide), fun h' => (hz h').elim⟩,
              ⟨fun _ => hz, fun _ => rfl⟩⟩
        · intro hvo
          subst hvo
          have htype :
              ({ type := if false = true then
                    if cget st1.count "invalid_items" = 0 then "validate_success"
                    else "validate_failed"
                  else
                    if st1.completed_log.length = cget st1.count "total_items" then
                      "import_complete"
                    else "import_incomplete",
                 count := st1.count } : RunResult).type
              = if st1.completed_log.length = metadata.total then "import_complete"
                else "import_incomplete" := by
            simp [htotal]
          rw [htype]
          by_cases hc : st1.completed_log.length = metadata.total
          · rw [if_pos hc]
            exact ⟨⟨fun _ => hc, fun _ => rfl⟩,
              ⟨fun heq => absurd heq (by decide), fun h' => (h' hc).elim⟩⟩
          · rw [if_neg hc]
            exact ⟨⟨fun heq => absurd heq (by decide), fun h' => (hc h').elim⟩,
              ⟨fun _ => hc, fun _ => rfl⟩⟩

/-- Witness for C3: the one-row import completes with the completed
ledger matching the total. -/
theorem claim_c3_witness :
    (ImportRun.run envW jobW mdOne false).1.completed_log.length = mdOne.total := by
  have h := claim_c3_terminal envW jobW mdOne false
    (ImportRun.run envW jobW mdOne false).1 resOneW rfl
  exact ((h.2 rfl).1).mp rfl

/-- C10: the `rows` counter is initialized to zero and never
incremented: in every yielded snapshot and in the final result,
`count["rows"]` is 0. -/
theorem claim_c10_rows_counter (env : RepoEnv) (job : ImportJob)
    (metadata : Metadata) (vo : Bool) (st : RunState)
    (res : Except PyError RunResult)
    (h : ImportRun.run env job metadata vo = (st, res)) :
    cget st.count "rows" = 0
    ∧ (∀ c ∈ st.snapshots, cget c "rows" = 0)
    ∧ (∀ r, res = .ok r → cget r.count "rows" = 0) := by
  have hinit : cget (initState metadata job).count "rows" = 0 := by
    simp [initState, initialCount, cget, cfind]
  unfold ImportRun.run at h
  split at h
  · simp only [Prod.mk.injEq] at h
    obtain ⟨rfl, rfl⟩ := h
    refine ⟨hinit, ?_, ?_⟩
    · intro c hc
      simp [initState] at hc
    · intro r hr
      simp at hr
  · cases hrr : runRows env job vo (initState metadata job)
        (rowStream metadata.rows job.completed_log) with
    | mk st1 err =>
      rw [hrr] at h
      have heff := runRows_effects env job vo
        (rowStream metadata.rows job.completed_log) (initState metadata job)
        st1 err hrr
      have hcount : cget st1.count "rows" = 0 := by
        rw [heff.1 "rows" (by decide)]
        exact hinit
      have hsnaps : ∀ c ∈ st1.snapshots, cget c "rows" = 0 := by
        apply heff.2.2.1 "rows" 0 (by decide) hinit
        intro c hc
        simp [initState] at hc
      cases err with
      | some e =>
        simp only [Prod.mk.injEq] at h
        obtain ⟨rfl, rfl⟩ := h
        exact ⟨hcount, hsnaps, fun r hr => by simp at hr⟩
      | none =>
        simp only [Prod.mk.injEq] at h
        obtain ⟨rfl, hres⟩ := h
        refine ⟨hcount, hsnaps, ?_⟩
        intro r hr
        rw [← hres] at hr
        injection hr with hh
        rw [← hh]
        exact hcount

/-- Witness for C10: the final result of the one-row import reports
zero in the `rows` counter. -/
theorem claim_c10_witness :
    cget (ImportRun.run envW jobW mdOne false).1.count "rows" = 0 :=
  (claim_c10_rows_counter envW jobW mdOne false
    (ImportRun.run envW jobW mdOne false).1
    (ImportRun.run envW jobW mdOne false).2 rfl).1

/-- C7 counterexample: a run whose single consumed row is an invalid-row
marker records it in the invalid ledger but yields no snapshot at all,
refuting "after each row consumed — including invalid-row markers — the
controller yields exactly one incremental snapshot". -/
theorem claim_c7_counterexample :
    (ImportRun.run envW jobW mdInvalid false).1.invalid_items.length = 1
    ∧ (ImportRun.run envW jobW mdInvalid false).1.snapshots = [] := by
  constructor
  · rfl
  · rfl

/-- C7 (amended): a snapshot is yielded exactly after each streamed row
that reaches the commit attempt — a row that passes validation in
non-validate-only mode, whether the commit succeeds or fails with a job
error; invalid-row markers, rows failing validation, and rows in
validate-only mode yield none. Every yielded snapshot's counters mapping
contains all the listed counter keys. -/
theorem claim_c7_amended (env : RepoEnv) (job : ImportJob) (metadata : Metadata)
    (vo : Bool) (st : RunState) (res : RunResult)
    (h : ImportRun.run env job metadata vo = (st, .ok res)) :
    st.snapshots.length
      = (rowStream metadata.rows job.completed_log).countP (commitStage env job vo)
    ∧ ∀ c ∈ st.snapshots, ∀ k ∈ counterKeysListed, (cfind c k).isSome := by
  have hkeys0 : keysPresent (initState metadata job).count := by
    intro k hk
    simp only [counterKeysListed, List.mem_cons] at hk
    rcases hk with rfl | rfl | rfl | rfl | rfl | rfl | rfl | rfl | rfl | rfl | rfl | hk
    · simp [initState, initialCount, cfind]
    · simp [initState, initialCount, cfind]
    · simp [initState, initialCount, cfind]
    · simp [initState, initialCount, cfind]
    · simp [initState, initialCount, cfind]
    · simp [initState, initialCount, cfind]
    · simp [initState, initialCount, cfind]
    · simp [initState, initialCount, cfind]
    · simp [initState, initialCount, cfind]
    · simp [initState, initialCount, cfind]
    · simp [initState, initialCount, cfind]
    · simp at hk
  unfold ImportRun.run at h
  split at h
  · simp at h
  · cases hrr : runRows env job vo (initState metadata job)
        (rowStream metadata.rows job.completed_log) with
    | mk st1 err =>
      rw [hrr] at h
      cases err with
      | some e => simp at h
      | none =>
        simp only [Prod.mk.injEq] at h
        obtain ⟨rfl, -⟩ := h
        have heff := runRows_effects env job vo
          (rowStream metadata.rows job.completed_log) (initState metadata job)
          st1 none hrr
        refine ⟨?_, ?_⟩
        · have hl := heff.2.2.2.2 rfl
          simpa [initState] using hl
        · intro c hc
          exact heff.2.2.2.1
            ⟨hkeys0, by intro c' hc'; simp [initState] at hc'⟩ c hc

/-- Witness for C7 (amended): the one-row import yields exactly as many
snapshots as there are commit-stage rows in its stream. -/
theorem claim_c7_witness :
    (ImportRun.run envW jobW mdOne false).1.snapshots.length
      = (rowStream mdOne.rows jobW.completed_log).countP (commitStage envW jobW false) :=
  (claim_c7_amended envW jobW mdOne false
    (ImportRun.run envW jobW mdOne false).1 resOneW rfl).1

/-- C4: a row whose commit raises a job error increments the error
counter, appends the item to this run's failed ledger with the error
message as the reason, does not touch the job's completed ledger, and
the loop continues with the remaining rows. -/
theorem claim_c4_commit_failure (env : RepoEnv) (job : ImportJob) (st : RunState)
    (row : Row) (rest : List MetaRow) (validation : VDict) (msg : String)
    (hv : ImportRow.validate_item env job row (row.get_object true) = .ok validation)
    (hok : vOk validation = true)
    (hfail : ImportRow.update_repo env job row (row.get_object true)
      = .error (.jobError msg)) :
    ∃ st', processRow env job false st (.row row) = .ok st'
      ∧ cget st'.count "items_with_errors" = cget st.count "items_with_errors" + 1
      ∧ st'.failed_items = st.failed_items.append
          (ledgerRow env (some (row.get_object true)) row.line_reference "reason" msg)
      ∧ st'.completed_log = st.completed_log
      ∧ st'.invalid_items = st.invalid_items
      ∧ runRows env job false st (.row row :: rest) = runRows env job false st' rest := by
  have hpr : processRow env job false st (.row row) = .ok
      (({ st with
            count := cinc (cinc (cinc st.count "files" row.filenames.length)
              "valid_items" 1) "items_with_errors" 1
            snapshots := st.snapshots
              ++ [cinc (cinc (cinc st.count "files" row.filenames.length)
                  "valid_items" 1) "items_with_errors" 1] } : RunState).drop_failed
        env (some (row.get_object true)) row.line_reference msg) := by
    simp [processRow, hv, hok, hfail]
  refine ⟨_, hpr, ?_, ?_, ?_, ?_, ?_⟩
  · simp only [RunState.drop_failed]
    rw [cget_cinc_self, cget_cinc_ne _ _ _ _ (by decide),
      cget_cinc_ne _ _ _ _ (by decide)]
  · simp [RunState.drop_failed]
  · simp [RunState.drop_failed]
  · simp [RunState.drop_failed]
  · simp only [runRows]
    rw [hpr]

/-- Witness for C4: a repository that rejects the patch leads to one
failed-ledger entry, an untouched completed ledger, and an error count
of one. -/
theorem claim_c4_witness :
    (runRows envPatchFail jobW false (initState mdOne jobW)
        [MetaRow.row rowChanged]).1.failed_items.length = 1
    ∧ (runRows envPatchFail jobW false (initState mdOne jobW)
        [MetaRow.row rowChanged]).1.completed_log.length = 0
    ∧ cget (runRows envPatchFail jobW false (initState mdOne jobW)
        [MetaRow.row rowChanged]).1.count "items_with_errors" = 1 := by
  obtain ⟨st', hpr, hcnt, hfail, hcomp, hinv, hcont⟩ :=
    claim_c4_commit_failure envPatchFail jobW (initState mdOne jobW) rowChanged []
      [("FILES", VResult.success "All files present"),
       ("ITEM_FILES", VResult.success "All files present")]
      "Updating item failed: 412 Precondition Failed" rfl rfl rfl
  have h1 : (runRows envPatchFail jobW false (initState mdOne jobW)
      [MetaRow.row rowChanged]).1 = st' := by
    rw [hcont]
    rfl
  refine ⟨?_, ?_, ?_⟩
  · rw [h1, hfail]
    rfl
  · rw [h1, hcomp]
    rfl
  · rw [h1, hcnt]
    rfl

/-- C5: a row referencing a missing file gets a failing `FILES` entry
whose message enumerates exactly the missing names; the row is counted
invalid, logged to this run's invalid ledger with the concatenated
failure reasons, and never reaches the commit step (no repository
writes, no completed or failed ledger change, no snapshot, and the row's
processing is independent of the repository's create and patch
behavior). -/
theorem claim_c5_missing_files (env env' : RepoEnv) (job : ImportJob)
    (st : RunState) (row : Row) (item : Item) (base : VDict)
    (missing : List String)
    (hitem : row.get_object true = item)
    (hbase : item.validation = .ok base)
    (hmissing : missing = row.filenames.filter
      (fun name => !(env.fileExists
        (job.get_source (job.config.binaries_location.getD "") name))))
    (hne : missing ≠ [])
    (henvF : env'.fileExists = env.fileExists)
    (henvN : env'.now = env.now) :
    ImportRow.validate_files env job (job.config.binaries_location.getD "")
        row.filenames
      = .failure ("Missing " ++ toString missing.length ++ " files: "
          ++ String.intercalate ";" missing)
    ∧ (∃ d, ImportRow.validate_item env job row item = .ok d
        ∧ vget d "FILES" = some (.failure ("Missing " ++ toString missing.length
            ++ " files: " ++ String.intercalate ";" missing))
        ∧ vOk d = false
        ∧ processRow env job false st (.row row) = .ok
            (({ st with count := cinc (cinc st.count "files"
                  row.filenames.length) "invalid_items" 1 } : RunState).drop_invalid
              env (some item) row.line_reference
              ("Validation failures: " ++ String.intercalate "; "
                ((vFailures d).map (fun p => p.1 ++ " " ++ p.2.message)))))
    ∧ (∀ st', processRow env job false st (.row row) = .ok st' →
        cget st'.count "invalid_items" = cget st.count "invalid_items" + 1
        ∧ st'.completed_log = st.completed_log
        ∧ st'.failed_items = st.failed_items
        ∧ st'.repo_ops = st.repo_ops
        ∧ st'.snapshots = st.snapshots)
    ∧ processRow env' job false st (.row row)
        = processRow env job false st (.row row) := by
  have hvf : ImportRow.validate_files env job
      (job.config.binaries_location.getD "") row.filenames
      = .failure ("Missing " ++ toString missing.length ++ " files: "
          ++ String.intercalate ";" missing) := by
    unfold ImportRow.validate_files
    rw [← hmissing]
    rw [if_neg (fun h0 => hne (List.length_eq_zero.mp h0))]
  have hvf' : ImportRow.validate_files env' job
      (job.config.binaries_location.getD "") row.filenames
      = .failure ("Missing " ++ toString missing.length ++ " files: "
          ++ String.intercalate ";" missing) := by
    unfold ImportRow.validate_files
    rw [henvF, ← hmissing]
    rw [if_neg (fun h0 => hne (List.length_eq_zero.mp h0))]
  have hvfI : ImportRow.validate_files env' job
      (job.config.binaries_location.getD "") row.item_filenames
      = ImportRow.validate_files env job
        (job.config.binaries_location.getD "") row.item_filenames := by
    unfold ImportRow.validate_files
    rw [henvF]
  have hd : ImportRow.validate_item env job row item = .ok
      (vset (vset base "FILES" (.failure ("Missing " ++ toString missing.length
          ++ " files: " ++ String.intercalate ";" missing)))
        "ITEM_FILES"
        (ImportRow.validate_files env job
          (job.config.binaries_location.getD "") row.item_filenames)) := by
    simp [ImportRow.validate_item, hbase, hvf]
  have hd' : ImportRow.validate_item env' job row item = .ok
      (vset (vset base "FILES" (.failure ("Missing " ++ toString missing.length
          ++ " files: " ++ String.intercalate ";" missing)))
        "ITEM_FILES"
        (ImportRow.validate_files env job
          (job.config.binaries_location.getD "") row.item_filenames)) := by
    simp [ImportRow.validate_item, hbase, hvf', hvfI]
  have hvgF : vget
      (vset (vset base "FILES" (.failure ("Missing " ++ toString missing.length
          ++ " files: " ++ String.intercalate ";" missing)))
        "ITEM_FILES"
        (ImportRow.validate_files env job
          (job.config.binaries_location.getD "") row.item_filenames))
      "FILES" = some (.failure ("Missing " ++ toString missing.length
          ++ " files: " ++ String.intercalate ";" missing)) := by
    rw [vget_vset_ne _ _ _ _ (by decide)]
    exact vget_vset_self _ _ _
  have hokF : vOk
      (vset (vset base "FILES" (.failure ("Missing " ++ toString missing.length
          ++ " files: " ++ String.intercalate ";" missing)))
        "ITEM_FILES"
        (ImportRow.validate_files env job
          (job.config.binaries_location.getD "") row.item_filenames)) = false :=
    vOk_false_of_vget_failure _ "FILES" _ hvgF
  have hpr : processRow env job false st (.row row) = .ok
      (({ st with
            count := cinc (cinc st.count "files" row.filenames.length) "invalid_items" 1
          } : RunState).drop_invalid env (some item)
        row.line_reference
        ("Validation failures: " ++ String.intercalate "; "
          ((vFailures
            (vset (vset base "FILES" (.failure ("Missing "
                ++ toString missing.length ++ " files: "
                ++ String.intercalate ";" missing)))
              "ITEM_FILES"
              (ImportRow.validate_files env job
                (job.config.binaries_location.getD "") row.item_filenames))).map
            (fun p => p.1 ++ " " ++ p.2.message)))) := by
    simp [processRow, hitem, hd, hokF]
  have hpr' : processRow env' job false st (.row row) = .ok
      (({ st with
            count := cinc (cinc st.count "files" row.filenames.length) "invalid_items" 1
          } : RunState).drop_invalid env' (some item)
        row.line_reference
        ("Validation failures: " ++ String.intercalate "; "
          ((vFailures
            (vset (vset base "FILES" (.failure ("Missing "
                ++ toString missing.length ++ " files: "
                ++ String.intercalate ";" missing)))
              "ITEM_FILES"
              (ImportRow.validate_files env job
                (job.config.binaries_location.getD "") row.item_filenames))).map
            (fun p => p.1 ++ " " ++ p.2.message)))) := by
    simp [processRow, hitem, hd', hokF]
  refine ⟨hvf, ⟨_, hd, hvgF, hokF, hpr⟩, ?_, ?_⟩
  · intro st' hppr
    rw [hpr] at hppr
    injection hppr with heq
    rw [← heq]
    refine ⟨?_, rfl, rfl, rfl, rfl⟩
    simp only [RunState.drop_invalid]
    rw [cget_cinc_self, cget_cinc_ne _ _ _ _ (by decide)]
  · rw [hpr, hpr']
    simp [RunState.drop_invalid, ledgerRow, henvN]

/-- Witness for C5: a row referencing `a.tif` and a missing `b.tif`
fails the `FILES` entry with exactly the missing name in the message. -/
theorem claim_c5_witness :
    ImportRow.validate_files envMiss jobW
      (jobW.config.binaries_location.getD "") rowMiss.filenames
      = .failure "Missing 1 files: b.tif" := by
  have h := claim_c5_missing_files envMiss envMiss jobW (initState mdOne jobW)
    rowMiss itemNew [] ["b.tif"] rfl rfl (by decide) (by decide) rfl rfl
  exact h.1

end Plastron
